import Mathlib

/-!
Shallow embedding of the digital-asset server (src/unnamed/part_000, an Express
application). The Mongo collection is modelled as a list of asset records; each
route handler becomes a pure function from the store (and the request data) to
a response together with the updated store. Randomness (crypto.randomBytes) is
passed in as an explicit fresh-token argument, and bcryptjs is modelled as an
injective tagging function, reflecting that a bcrypt hash is deterministic per
verification and collision-free for the purposes of these claims.
-/

/-- Model of bcrypt.hash(p, 10) from the bcryptjs library (an external
collaborator): a deterministic, injective, one-way tag of the raw PIN. -/
def bcryptHash (p : String) : String := "$2a$10$" ++ p

/-- Model of bcrypt.compare(p, h): true exactly when h is the hash of p. -/
def bcryptCompare (p h : String) : Bool := h == bcryptHash p

/-- Truthiness of an optional string, as JavaScript tests it: undefined and
the empty string are falsy, every other string is truthy. -/
def truthy : Option String → Bool
  | none => false
  | some s => !s.isEmpty

/-- Model of the JavaScript expression (o || d) used for default values. -/
def jsOrStr (o : Option String) (d : String) : String :=
  match o with
  | some s => if s.isEmpty then d else s
  | none => d

/-- Rendering of an optional string inside a template literal: undefined
prints as the text undefined. -/
def showOptPin : Option String → String
  | none => "undefined"
  | some s => s

/-- Model of the JavaScript String.prototype.trim used by the verify-pin
route: strips leading and trailing whitespace characters. -/
def jsTrim (s : String) : String :=
  ⟨((s.data.dropWhile Char.isWhitespace).reverse.dropWhile
      Char.isWhitespace).reverse⟩

/-- User record (UserSchema, part_000 lines 46-53); only the fields the share
routes read (populate of userId with name) are kept. -/
structure User where
  id : Nat
  name : String
deriving DecidableEq

/-- Asset record (AssetSchema, part_000 lines 55-69). The pin field holds the
bcrypt hash when set; shareToken is the nullable unique share token. -/
structure Asset where
  id : Nat
  name : String
  type : String
  size : String
  sizeBytes : Nat
  uploadDate : Nat
  tags : List String
  url : String
  userId : Nat
  visibility : String
  pin : Option String
  shareToken : Option String
  views : Nat
  downloads : Nat
deriving DecidableEq

/-- Asset.findOne with filter on _id and userId (owner-scoped lookup). -/
def findByIdAndUser (l : List Asset) (id uid : Nat) : Option Asset :=
  l.find? (fun a => a.id == id && a.userId == uid)

/-- Asset.findOne with filter on shareToken. -/
def findByShareToken (l : List Asset) (t : String) : Option Asset :=
  l.find? (fun a => a.shareToken == some t)

/-- Asset.findOne with filter on _id only (used by verify-pin). -/
def findById (l : List Asset) (id : Nat) : Option Asset :=
  l.find? (fun a => a.id == id)

/-- Mongoose document save: the record with the same _id is overwritten. -/
def saveAsset (l : List Asset) (a : Asset) : List Asset :=
  l.map (fun b => if b.id == a.id then a else b)

/-- Asset.findByIdAndDelete: removes the record with the given _id. -/
def deleteById : List Asset → Nat → List Asset
  | [], _ => []
  | a :: rest, id => if a.id == id then rest else a :: deleteById rest id

/-- HTTP outcome of a handler: a JSON body on success, or a status code with
a plain-text message on failure. -/
inductive HResp (α : Type) where
  | ok (body : α)
  | err (status : Nat) (msg : String)
deriving DecidableEq

/-- Multer file metadata consumed by the upload route. -/
structure FileInfo where
  filename : String
  size : Nat
deriving DecidableEq

/-- Body fields of the upload request (req.body); tags arrive already parsed
since JSON.parse of the tag string is external to the claims. -/
structure UploadReq where
  name : String
  type : String
  size : String
  tags : List String
  visibility : Option String
  pin : Option String
deriving DecidableEq

/-- Result of the upload route: the HTTP response and the updated store. -/
structure UploadOutcome where
  resp : HResp Asset
  assets : List Asset
deriving DecidableEq

/-- POST /api/assets/upload (part_000 lines 230-267). A PIN is hashed only
when supplied (truthy) and visibility is private or shared; a share token is
drawn only when visibility is shared; the response body is the saved record. -/
def uploadAsset (assets : List Asset) (file : Option FileInfo) (uid : Nat)
    (req : UploadReq) (newId : Nat) (freshToken : String) (now : Nat) :
    UploadOutcome :=
  match file with
  | none => ⟨.err 400 "No file uploaded", assets⟩
  | some f =>
    let hashedPin : Option String :=
      match req.pin with
      | some p =>
        if !p.isEmpty &&
            (req.visibility == some "private" || req.visibility == some "shared")
        then some (bcryptHash p) else none
      | none => none
    let shareToken : Option String :=
      if req.visibility == some "shared" then some freshToken else none
    let asset : Asset :=
      { id := newId
        name := req.name
        type := req.type
        size := req.size
        sizeBytes := f.size
        uploadDate := now
        tags := req.tags
        url := "http://localhost:5000/uploads/" ++ f.filename
        userId := uid
        visibility := jsOrStr req.visibility "private"
        pin := hashedPin
        shareToken := shareToken
        views := 0
        downloads := 0 }
    ⟨.ok asset, assets ++ [asset]⟩

/-- Shape of one entry of the owner listing (GET /api/assets): the pin hash is
replaced by the boolean hasPin flag and is not part of the response type. -/
structure FormattedAsset where
  id : Nat
  name : String
  type : String
  size : String
  uploadDate : Nat
  tags : List String
  url : String
  visibility : String
  hasPin : Bool
  shareToken : Option String
deriving DecidableEq

/-- Mapping of a stored asset to its listing entry (part_000 lines 275-286). -/
def formatAsset (a : Asset) : FormattedAsset :=
  { id := a.id
    name := a.name
    type := a.type
    size := a.size
    uploadDate := a.uploadDate
    tags := a.tags
    url := a.url
    visibility := a.visibility
    hasPin := truthy a.pin
    shareToken := a.shareToken }

/-- GET /api/assets (part_000 lines 270-291): the owner receives the formatted
entries of their own assets (the descending _id sort only permutes the list and
is omitted). -/
def listAssets (assets : List Asset) (uid : Nat) : List FormattedAsset :=
  (assets.filter (fun a => a.userId == uid)).map formatAsset

/-- Result of the delete route: response, updated store, updated uploads
directory (the file names present on disk). -/
structure DeleteOutcome where
  resp : HResp String
  assets : List Asset
  files : List String
deriving DecidableEq

/-- Last path segment of a URL, as url.split(sep).pop() computes it. -/
def urlFilename (url : String) : String :=
  (url.splitOn "/").getLastD ""

/-- DELETE /api/assets/:id (part_000 lines 294-325). When the asset has a PIN
hash, the x-asset-pin header is required and must bcrypt-match; on success the
record is deleted and the stored file unlinked if it exists. -/
def deleteAsset (assets : List Asset) (files : List String) (uid id : Nat)
    (pinHeader : Option String) : DeleteOutcome :=
  match findByIdAndUser assets id uid with
  | none => ⟨.err 404 "Asset not found", assets, files⟩
  | some asset =>
    if truthy asset.pin then
      if !(truthy pinHeader) then ⟨.err 403 "PIN required", assets, files⟩
      else
        let p := showOptPin pinHeader
        if bcryptCompare p (asset.pin.getD "") then
          let fname := urlFilename asset.url
          ⟨.ok "Deleted", deleteById assets id,
            if files.contains fname then files.erase fname else files⟩
        else ⟨.err 403 "Invalid PIN", assets, files⟩
    else
      let fname := urlFilename asset.url
      ⟨.ok "Deleted", deleteById assets id,
        if files.contains fname then files.erase fname else files⟩

/-- Result of the share-generation route. -/
structure ShareGenOutcome where
  resp : HResp (Option String)
  assets : List Asset
deriving DecidableEq

/-- POST /api/assets/:id/share (part_000 lines 328-342): sets visibility to
shared, draws a fresh token only when none is present, saves, and returns the
token. -/
def generateShare (assets : List Asset) (uid id : Nat) (fresh : String) :
    ShareGenOutcome :=
  match findByIdAndUser assets id uid with
  | none => ⟨.err 404 "Not found", assets⟩
  | some asset =>
    let a1 : Asset := { asset with visibility := "shared" }
    let a2 : Asset :=
      if truthy a1.shareToken then a1 else { a1 with shareToken := some fresh }
    ⟨.ok a2.shareToken, saveAsset assets a2⟩

/-- True when some other record already holds the token, which the unique
sparse index on shareToken (part_000 line 66) would reject at save time. -/
def tokenTakenByOther (assets : List Asset) (id : Nat) (t : String) : Bool :=
  assets.any (fun b => b.id != id && b.shareToken == some t)

/-- POST /api/assets/:id/share run against the repository uniqueness
constraint: the handler draws a single token with no retry, so a duplicate-key
rejection of save lands in the catch block and is sent as a 500. -/
def generateShareUnique (assets : List Asset) (uid id : Nat) (fresh : String) :
    ShareGenOutcome :=
  match findByIdAndUser assets id uid with
  | none => ⟨.err 404 "Not found", assets⟩
  | some asset =>
    let a1 : Asset := { asset with visibility := "shared" }
    let a2 : Asset :=
      if truthy a1.shareToken then a1 else { a1 with shareToken := some fresh }
    match a2.shareToken with
    | some t =>
      if tokenTakenByOther assets id t then
        ⟨.err 500 "E11000 duplicate key error", assets⟩
      else ⟨.ok a2.shareToken, saveAsset assets a2⟩
    | none => ⟨.ok a2.shareToken, saveAsset assets a2⟩

/-- Body of a successful GET /api/share response (part_000 lines 363-374):
url is attached only on the unprotected branch. -/
structure ShareInfo where
  id : Nat
  name : String
  type : String
  size : String
  ownerName : String
  isProtected : Bool
  uploadDate : Nat
  url : Option String
deriving DecidableEq

/-- Result of the public share-metadata route. -/
structure ShareOutcome where
  resp : HResp ShareInfo
  assets : List Asset
deriving DecidableEq

/-- GET /api/share (part_000 lines 347-384): anonymous metadata lookup by
share token. With a PIN set the url is withheld and the view counter is left
alone; without one the url is returned and views is incremented and saved.
A missing owner makes the populate result null and the name access throw,
which the catch block turns into a 500. -/
def getShare (users : List User) (assets : List Asset)
    (token : Option String) : ShareOutcome :=
  if !(truthy token) then ⟨.err 400 "Token required", assets⟩
  else
    let t := showOptPin token
    match findByShareToken assets t with
    | none => ⟨.err 404 "Asset not found", assets⟩
    | some asset =>
      match users.find? (fun u => u.id == asset.userId) with
      | none => ⟨.err 500 "Cannot read properties of null", assets⟩
      | some owner =>
        let isProtected := truthy asset.pin
        let base : ShareInfo :=
          { id := asset.id
            name := asset.name
            type := asset.type
            size := asset.size
            ownerName := owner.name
            isProtected := isProtected
            uploadDate := asset.uploadDate
            url := none }
        if isProtected then ⟨.ok base, assets⟩
        else
          ⟨.ok { base with url := some asset.url },
            saveAsset assets { asset with views := asset.views + 1 }⟩

/-- Result of the anonymous share-access route. -/
structure AccessOutcome where
  resp : HResp String
  assets : List Asset
deriving DecidableEq

/-- POST /api/share/access (part_000 lines 387-408): anonymous access by token
plus PIN. The PIN gate mirrors the delete route; on success views is
incremented and the raw url returned. -/
def shareAccess (assets : List Asset) (t : String) (pin : Option String) :
    AccessOutcome :=
  match findByShareToken assets t with
  | none => ⟨.err 404 "Asset not found", assets⟩
  | some asset =>
    if truthy asset.pin then
      if !(truthy pin) then ⟨.err 403 "PIN required", assets⟩
      else if bcryptCompare (showOptPin pin) (asset.pin.getD "") then
        ⟨.ok asset.url, saveAsset assets { asset with views := asset.views + 1 }⟩
      else ⟨.err 403 "Invalid PIN", assets⟩
    else
      ⟨.ok asset.url, saveAsset assets { asset with views := asset.views + 1 }⟩

/-- Result of the verify-pin route, together with the console.log lines it
emits, in order. -/
structure VerifyOutcome where
  resp : HResp Bool
  logs : List String
deriving DecidableEq

/-- POST /api/assets/:id/verify-pin (part_000 lines 411-452). The handler
looks the asset up by _id alone, logs the received raw PIN, and when a PIN
hash is stored compares the trimmed supplied PIN against it. The response
body true stands for the JSON success flag. -/
def verifyPinHandler (assets : List Asset) (id : Nat) (pin : Option String) :
    VerifyOutcome :=
  let l1 := "[Verify-PIN] Request for Asset ID: " ++ toString id
  let l2 := "[Verify-PIN] Received PIN: " ++ showOptPin pin
  match findById assets id with
  | none => ⟨.err 404 "Asset not found", [l1, l2, "[Verify-PIN] Asset not found"]⟩
  | some asset =>
    let l3 := "[Verify-PIN] Asset found: " ++ asset.name ++ ", Has PIN: " ++
      toString (truthy asset.pin)
    if truthy asset.pin then
      if !(truthy pin) then
        ⟨.err 403 "PIN required", [l1, l2, l3, "[Verify-PIN] No PIN provided"]⟩
      else
        let cleanPin := jsTrim (showOptPin pin)
        let l4 := "[Verify-PIN] Comparing " ++ cleanPin ++ " with hash..."
        if bcryptCompare cleanPin (asset.pin.getD "") then
          ⟨.ok true, [l1, l2, l3, l4, "[Verify-PIN] PIN Valid!"]⟩
        else
          ⟨.err 403 "Invalid PIN", [l1, l2, l3, l4, "[Verify-PIN] Invalid PIN"]⟩
    else
      ⟨.ok true, [l1, l2, l3, "[Verify-PIN] Asset has no PIN protected"]⟩

/-! Helper lemmas about the store operations, and concrete fixtures used by
the witnesses. -/

def demoUsers : List User := [{ id := 7, name := "Alice" }]

def demoAsset : Asset :=
  { id := 1, name := "report", type := "document", size := "1 KB",
    sizeBytes := 1024, uploadDate := 5, tags := ["work"],
    url := "http://localhost:5000/uploads/1-report.pdf", userId := 7,
    visibility := "shared", pin := some (bcryptHash "1234"),
    shareToken := some "tok123", views := 0, downloads := 0 }

def demoAssetNoPin : Asset :=
  { demoAsset with
    id := 2, pin := none, shareToken := some "tok456",
    url := "http://localhost:5000/uploads/2-notes.txt" }

def demoAssetFresh : Asset :=
  { demoAsset with
    id := 3, pin := none, shareToken := none,
    visibility := "private" }

def demoStore : List Asset := [demoAsset, demoAssetNoPin, demoAssetFresh]

def demoFiles : List String := ["1-report.pdf", "2-notes.txt"]

def demoFile : FileInfo := { filename := "g.png", size := 10 }

def demoReqShortPin : UploadReq :=
  { name := "b", type := "image", size := "10 B", tags := [],
    visibility := some "shared", pin := some "12" }

def demoReqNoPin : UploadReq := { demoReqShortPin with pin := none }

def demoReqC10 : UploadReq :=
  { name := "c", type := "image", size := "3 B", tags := [],
    visibility := some "shared", pin := some "5678" }

/-- Invariant of C8: a shared asset always carries a share token. -/
def SharedHasToken (a : Asset) : Prop :=
  a.visibility = "shared" → a.shareToken.isSome = true

instance (a : Asset) : Decidable (SharedHasToken a) := by
  unfold SharedHasToken
  infer_instance

lemma isEmpty_false_of_ne {s : String} (h : s ≠ "") : s.isEmpty = false := by
  cases hs : s.isEmpty
  · rfl
  · exact absurd ((String.isEmpty_iff s).mp hs) h

lemma truthy_some_of_ne {s : String} (h : s ≠ "") : truthy (some s) = true := by
  simp [truthy, isEmpty_false_of_ne h]

lemma bcryptHash_ne_empty (q : String) : bcryptHash q ≠ "" := by
  intro hq
  have hlen := congrArg String.length hq
  have h7 : ("$2a$10$" : String).length = 7 := rfl
  rw [bcryptHash, String.length_append, h7] at hlen
  simp at hlen

/-- C2: with a PIN set, the anonymous share-metadata lookup answers with
isProtected true and no url and leaves the store, hence the view counter,
untouched; with no PIN it attaches the url and saves the record with views
incremented by one. -/
theorem getShare_pin_gate (users : List User) (assets : List Asset)
    (t : String) (asset : Asset) (owner : User) (ht : t ≠ "")
    (hfind : findByShareToken assets t = some asset)
    (howner : users.find? (fun u => u.id == asset.userId) = some owner) :
    (∀ h, asset.pin = some h → h ≠ "" →
      getShare users assets (some t) =
        ⟨.ok { id := asset.id, name := asset.name, type := asset.type,
               size := asset.size, ownerName := owner.name,
               isProtected := true, uploadDate := asset.uploadDate,
               url := none }, assets⟩) ∧
    (asset.pin = none →
      getShare users assets (some t) =
        ⟨.ok { id := asset.id, name := asset.name, type := asset.type,
               size := asset.size, ownerName := owner.name,
               isProtected := false, uploadDate := asset.uploadDate,
               url := some asset.url },
          saveAsset assets { asset with views := asset.views + 1 }⟩) := by
  have hte : t.isEmpty = false := isEmpty_false_of_ne ht
  constructor
  · intro h hpin hne
    have hne' : h.isEmpty = false := isEmpty_false_of_ne hne
    simp [getShare, truthy, hte, showOptPin, hfind, howner, hpin, hne']
  · intro hpin
    simp [getShare, truthy, hte, showOptPin, hfind, howner, hpin]

/-- Witness for C2 on the demo store: the protected asset keeps its url and
counter private, the unprotected one serves the url and counts the view. -/
theorem getShare_pin_gate_witness :
    getShare demoUsers demoStore (some "tok123") =
      ⟨.ok { id := demoAsset.id, name := demoAsset.name, type := demoAsset.type,
             size := demoAsset.size, ownerName := "Alice", isProtected := true,
             uploadDate := demoAsset.uploadDate, url := none }, demoStore⟩ ∧
    getShare demoUsers demoStore (some "tok456") =
      ⟨.ok { id := demoAssetNoPin.id, name := demoAssetNoPin.name,
             type := demoAssetNoPin.type, size := demoAssetNoPin.size,
             ownerName := "Alice", isProtected := false,
             uploadDate := demoAssetNoPin.uploadDate,
             url := some demoAssetNoPin.url },
        saveAsset demoStore { demoAssetNoPin with views := 1 }⟩ := by
  constructor
  · exact (getShare_pin_gate demoUsers demoStore "tok123" demoAsset
      { id := 7, name := "Alice" } (by decide) (by decide) (by decide)).1
      (bcryptHash "1234") rfl (by decide)
  · exact (getShare_pin_gate demoUsers demoStore "tok456" demoAssetNoPin
      { id := 7, name := "Alice" } (by decide) (by decide) (by decide)).2 rfl

/-- C3: when no PIN hash is stored, the PIN gate is vacuous: owner delete,
the verify-pin check and anonymous share access all succeed with no PIN
supplied. -/
theorem noPin_operations_succeed (assets : List Asset) (files : List String)
    (uid id : Nat) (t : String) (asset : Asset)
    (hfind : findByIdAndUser assets id uid = some asset)
    (hfindId : findById assets id = some asset)
    (hfindT : findByShareToken assets t = some asset)
    (hpin : asset.pin = none) :
    (deleteAsset assets files uid id none).resp = .ok "Deleted" ∧
    (verifyPinHandler assets id none).resp = .ok true ∧
    (shareAccess assets t none).resp = .ok asset.url := by
  refine ⟨?_, ?_, ?_⟩
  · simp [deleteAsset, hfind, hpin, truthy]
  · simp [verifyPinHandler, hfindId, hpin, truthy]
  · simp [shareAccess, hfindT, hpin, truthy]

/-- Witness for C3: the unprotected demo asset is deletable, verifiable and
anonymously accessible with no PIN. -/
theorem noPin_operations_succeed_witness :
    (deleteAsset demoStore demoFiles 7 2 none).resp = .ok "Deleted" ∧
    (verifyPinHandler demoStore 2 none).resp = .ok true ∧
    (shareAccess demoStore "tok456" none).resp = .ok demoAssetNoPin.url :=
  noPin_operations_succeed demoStore demoFiles 7 2 "tok456" demoAssetNoPin
    (by decide) (by decide) (by decide) rfl

/-- C5: contrary to the never-log-the-raw-PIN rule, the verify-pin route
writes the supplied raw PIN to the console log in clear form, so two runs that
differ only in the raw PIN produce different log output. -/
theorem verifyPin_logs_raw_pin :
    (verifyPinHandler demoStore 1 (some "1234")).logs.contains
        "[Verify-PIN] Received PIN: 1234" = true ∧
    (verifyPinHandler demoStore 1 (some "1234")).logs ≠
      (verifyPinHandler demoStore 1 (some "9999")).logs := by
  constructor
  · decide
  · decide

/-- Counterexample to C6 as stated: a one-character PIN, far below the 4-6
character policy, is accepted by the upload route with no ValidationError and
stored as a hash. -/
theorem upload_short_pin_accepted :
    (uploadAsset [] (some { filename := "f.png", size := 100 }) 7
        { name := "a", type := "image", size := "1 KB", tags := [],
          visibility := some "private", pin := some "1" } 1 "tok" 0).resp =
      .ok { id := 1, name := "a", type := "image", size := "1 KB",
            sizeBytes := 100, uploadDate := 0, tags := [],
            url := "http://localhost:5000/uploads/f.png", userId := 7,
            visibility := "private", pin := some (bcryptHash "1"),
            shareToken := none, views := 0, downloads := 0 } := by
  decide

/-- C6 amended: the upload route performs no PIN length validation at all: any
nonempty PIN supplied with private or shared visibility is hashed and stored,
and an empty or missing PIN silently results in an asset with no PIN; no
ValidationError path exists. -/
theorem upload_pin_no_validation (assets : List Asset) (f : FileInfo)
    (uid : Nat) (req : UploadReq) (newId : Nat) (tok : String) (now : Nat) :
    (∀ p, req.pin = some p → p ≠ "" →
      (req.visibility = some "private" ∨ req.visibility = some "shared") →
      ∃ a, (uploadAsset assets (some f) uid req newId tok now).resp = .ok a ∧
        a.pin = some (bcryptHash p)) ∧
    (req.pin = none →
      ∃ a, (uploadAsset assets (some f) uid req newId tok now).resp = .ok a ∧
        a.pin = none) ∧
    (req.pin = some "" →
      ∃ a, (uploadAsset assets (some f) uid req newId tok now).resp = .ok a ∧
        a.pin = none) := by
  refine ⟨?_, ?_, ?_⟩
  · intro p hp hne hvis
    refine ⟨_, rfl, ?_⟩
    rcases hvis with h | h <;>
      simp [uploadAsset, hp, h, isEmpty_false_of_ne hne]
  · intro hp
    exact ⟨_, rfl, by simp [uploadAsset, hp]⟩
  · intro hp
    exact ⟨_, rfl, by
      simp [uploadAsset, hp, show ("" : String).isEmpty = true from rfl]⟩

/-- Witness for the amended C6: a 2-character PIN is stored hashed, and an
absent PIN leaves the record unprotected. -/
theorem upload_pin_no_validation_witness :
    (∃ a, (uploadAsset [] (some demoFile) 7 demoReqShortPin 4 "tk" 0).resp =
        .ok a ∧ a.pin = some (bcryptHash "12")) ∧
    (∃ a, (uploadAsset [] (some demoFile) 7 demoReqNoPin 4 "tk" 0).resp =
        .ok a ∧ a.pin = none) := by
  constructor
  · exact (upload_pin_no_validation [] demoFile 7 demoReqShortPin 4 "tk" 0).1
      "12" rfl (by decide) (Or.inr rfl)
  · exact (upload_pin_no_validation [] demoFile 7 demoReqNoPin 4 "tk" 0).2.1 rfl

/-- Counterexample to C9 as stated: when the single drawn token collides with
a token already held by another asset, the duplicate-key rejection is sent to
the caller as a 500 error instead of being retried. -/
theorem shareToken_collision_surfaced :
    (generateShareUnique demoStore 7 3 "tok123").resp =
      .err 500 "E11000 duplicate key error" := by
  decide

/-- C9 amended: share-token generation draws one token and never retries: if
the drawn token is already held by another asset the uniqueness rejection is
surfaced to the caller as a 500 and the store is unchanged; otherwise the
fresh token is assigned and returned. -/
theorem shareToken_collision_not_retried (assets : List Asset) (uid id : Nat)
    (fresh : String) (asset : Asset)
    (hfind : findByIdAndUser assets id uid = some asset)
    (hnotok : asset.shareToken = none) :
    (tokenTakenByOther assets id fresh = true →
      generateShareUnique assets uid id fresh =
        ⟨.err 500 "E11000 duplicate key error", assets⟩) ∧
    (tokenTakenByOther assets id fresh = false →
      (generateShareUnique assets uid id fresh).resp = .ok (some fresh)) := by
  constructor <;> intro hc <;>
    simp [generateShareUnique, hfind, hnotok, truthy, hc]

/-- Witness for the amended C9: on the demo store a colliding draw yields a
500 with the store untouched, and a fresh draw succeeds. -/
theorem shareToken_collision_not_retried_witness :
    generateShareUnique demoStore 7 3 "tok123" =
      ⟨.err 500 "E11000 duplicate key error", demoStore⟩ ∧
    (generateShareUnique demoStore 7 3 "freshtok").resp = .ok (some "freshtok") := by
  constructor
  · exact (shareToken_collision_not_retried demoStore 7 3 "tok123"
      demoAssetFresh (by decide) rfl).1 (by decide)
  · exact (shareToken_collision_not_retried demoStore 7 3 "freshtok"
      demoAssetFresh (by decide) rfl).2 (by decide)

/-- C10: the upload response is the full stored record, pin hash and share
token included, while a listing entry carries only the boolean hasPin flag:
its value does not depend on the hash and the hash itself has no field. -/
theorem upload_exposes_hash_listing_hides_it (assets : List Asset)
    (f : FileInfo) (uid newId now : Nat) (req : UploadReq) (tok : String)
    (p : String) (a : Asset)
    (hp : req.pin = some p) (hpne : p ≠ "")
    (hvis : req.visibility = some "shared") :
    (∃ b, (uploadAsset assets (some f) uid req newId tok now).resp = .ok b ∧
      b.pin = some (bcryptHash p) ∧ b.shareToken = some tok) ∧
    (∀ q1 q2, formatAsset { a with pin := some (bcryptHash q1) } =
      formatAsset { a with pin := some (bcryptHash q2) }) ∧
    (∀ q, (formatAsset { a with pin := some (bcryptHash q) }).hasPin = true) ∧
    (formatAsset { a with pin := none }).hasPin = false := by
  refine ⟨⟨_, rfl, ?_, ?_⟩, ?_, ?_, ?_⟩
  · simp [uploadAsset, hp, hvis, isEmpty_false_of_ne hpne]
  · simp [uploadAsset, hvis]
  · intro q1 q2
    simp [formatAsset, truthy_some_of_ne (bcryptHash_ne_empty q1),
      truthy_some_of_ne (bcryptHash_ne_empty q2)]
  · intro q
    simp [formatAsset, truthy_some_of_ne (bcryptHash_ne_empty q)]
  · simp [formatAsset, truthy]

/-- Witness for C10 on concrete data: the upload response carries the bcrypt
hash and the token, and the listing entry of the protected demo asset shows
only hasPin true. -/
theorem upload_exposes_hash_listing_hides_it_witness :
    (∃ b, (uploadAsset [] (some demoFile) 7 demoReqC10 9 "tk9" 0).resp =
        .ok b ∧ b.pin = some (bcryptHash "5678") ∧ b.shareToken = some "tk9") ∧
    (formatAsset { demoAsset with pin := some (bcryptHash "0000") } =
      formatAsset { demoAsset with pin := some (bcryptHash "1234") }) := by
  constructor
  · exact (upload_exposes_hash_listing_hides_it [] demoFile
      7 9 0 demoReqC10 "tk9" "5678" demoAsset rfl (by decide) rfl).1
  · exact (upload_exposes_hash_listing_hides_it [] demoFile
      7 9 0 demoReqC10 "tk9" "5678" demoAsset rfl (by decide) rfl).2.1
      "0000" "1234"

/-- Counterexample to C1 as stated: the verify-pin route succeeds on a
whitespace-padded PIN that does not bcrypt-match the stored hash, because the
handler trims the supplied PIN before comparing. -/
theorem verifyPin_trim_breaks_exact_match :
    (verifyPinHandler demoStore 1 (some " 1234")).resp = .ok true ∧
    bcryptCompare " 1234" (bcryptHash "1234") = false := by
  constructor
  · decide
  · decide

/-- C1 amended: with a PIN hash stored, owner delete and anonymous share
access succeed exactly when the supplied PIN bcrypt-matches the stored hash,
while verify-pin compares the whitespace-trimmed PIN; a missing or empty PIN
is denied 403 PIN required, a non-matching one 403 Invalid PIN, and both are
distinct from the 404 issued when no asset matches the id or token. -/
theorem pin_gate_signals (assets : List Asset) (files : List String)
    (uid id : Nat) (t : String) (asset : Asset) (h : String)
    (hfind : findByIdAndUser assets id uid = some asset)
    (hfindId : findById assets id = some asset)
    (hfindT : findByShareToken assets t = some asset)
    (hpin : asset.pin = some h) (hne : h ≠ "") :
    (deleteAsset assets files uid id none).resp = .err 403 "PIN required" ∧
    (deleteAsset assets files uid id (some "")).resp = .err 403 "PIN required" ∧
    (∀ p, p ≠ "" → bcryptCompare p h = false →
      (deleteAsset assets files uid id (some p)).resp = .err 403 "Invalid PIN") ∧
    (∀ p, p ≠ "" → bcryptCompare p h = true →
      (deleteAsset assets files uid id (some p)).resp = .ok "Deleted") ∧
    (shareAccess assets t none).resp = .err 403 "PIN required" ∧
    (∀ p, p ≠ "" → bcryptCompare p h = false →
      (shareAccess assets t (some p)).resp = .err 403 "Invalid PIN") ∧
    (∀ p, p ≠ "" → bcryptCompare p h = true →
      (shareAccess assets t (some p)).resp = .ok asset.url) ∧
    (verifyPinHandler assets id none).resp = .err 403 "PIN required" ∧
    (∀ p, p ≠ "" → bcryptCompare (jsTrim p) h = false →
      (verifyPinHandler assets id (some p)).resp = .err 403 "Invalid PIN") ∧
    (∀ p, p ≠ "" → bcryptCompare (jsTrim p) h = true →
      (verifyPinHandler assets id (some p)).resp = .ok true) ∧
    (∀ id2, findByIdAndUser assets id2 uid = none →
      (deleteAsset assets files uid id2 none).resp = .err 404 "Asset not found") ∧
    (∀ t2, findByShareToken assets t2 = none →
      (shareAccess assets t2 none).resp = .err 404 "Asset not found") := by
  have hne' : h.isEmpty = false := isEmpty_false_of_ne hne
  refine ⟨?_, ?_, ?_, ?_, ?_, ?_, ?_, ?_, ?_, ?_, ?_, ?_⟩
  · simp [deleteAsset, hfind, hpin, truthy, hne']
  · simp [deleteAsset, hfind, hpin, truthy, hne',
      show ("" : String).isEmpty = true from rfl]
  · intro p hp hcmp
    simp [deleteAsset, hfind, hpin, truthy, hne', showOptPin,
      isEmpty_false_of_ne hp, hcmp]
  · intro p hp hcmp
    simp [deleteAsset, hfind, hpin, truthy, hne', showOptPin,
      isEmpty_false_of_ne hp, hcmp]
  · simp [shareAccess, hfindT, hpin, truthy, hne']
  · intro p hp hcmp
    simp [shareAccess, hfindT, hpin, truthy, hne', showOptPin,
      isEmpty_false_of_ne hp, hcmp]
  · intro p hp hcmp
    simp [shareAccess, hfindT, hpin, truthy, hne', showOptPin,
      isEmpty_false_of_ne hp, hcmp]
  · simp [verifyPinHandler, hfindId, hpin, truthy, hne']
  · intro p hp hcmp
    simp [verifyPinHandler, hfindId, hpin, truthy, hne', showOptPin,
      isEmpty_false_of_ne hp, hcmp]
  · intro p hp hcmp
    simp [verifyPinHandler, hfindId, hpin, truthy, hne', showOptPin,
      isEmpty_false_of_ne hp, hcmp]
  · intro id2 h404
    simp [deleteAsset, h404]
  · intro t2 h404
    simp [shareAccess, h404]

/-- Witness for the amended C1 on the demo store: missing PIN, wrong PIN,
matching PIN and unknown id each produce their distinct signal. -/
theorem pin_gate_signals_witness :
    (deleteAsset demoStore demoFiles 7 1 none).resp = .err 403 "PIN required" ∧
    (deleteAsset demoStore demoFiles 7 1 (some "9999")).resp =
      .err 403 "Invalid PIN" ∧
    (deleteAsset demoStore demoFiles 7 1 (some "1234")).resp = .ok "Deleted" ∧
    (shareAccess demoStore "tok123" (some "1234")).resp = .ok demoAsset.url ∧
    (verifyPinHandler demoStore 1 (some "1234")).resp = .ok true ∧
    (deleteAsset demoStore demoFiles 7 99 none).resp =
      .err 404 "Asset not found" := by
  have m := pin_gate_signals demoStore demoFiles 7 1 "tok123" demoAsset
    (bcryptHash "1234") (by decide) (by decide) (by decide) rfl (by decide)
  refine ⟨m.1, ?_, ?_, ?_, ?_, ?_⟩
  · exact m.2.2.1 "9999" (by decide) (by decide)
  · exact m.2.2.2.1 "1234" (by decide) (by decide)
  · exact m.2.2.2.2.2.2.1 "1234" (by decide) (by decide)
  · exact m.2.2.2.2.2.2.2.2.2.1 "1234" (by decide) (by decide)
  · exact m.2.2.2.2.2.2.2.2.2.2.1 99 (by decide)

lemma find?_saveAsset_of_found {p : Asset → Bool} {l : List Asset}
    {a b : Asset} (hfind : l.find? p = some a) (hid : b.id = a.id)
    (hp : p b = true) : (saveAsset l b).find? p = some b := by
  induction l with
  | nil => simp at hfind
  | cons c rest ih =>
    by_cases hcid : (c.id == b.id) = true
    · simp only [saveAsset, List.map_cons, hcid, if_true]
      rw [List.find?_cons_of_pos _ hp]
    · have hpc : p c = false := by
        cases hpc : p c
        · rfl
        · rw [List.find?_cons_of_pos _ hpc] at hfind
          obtain rfl := Option.some.inj hfind
          exact absurd (by simp [hid]) hcid
      have hrest : rest.find? p = some a := by
        rwa [List.find?_cons_of_neg _ (by simp [hpc])] at hfind
      have ih2 := ih hrest
      simp only [saveAsset, List.map_cons, hcid, if_false] at ih2 ⊢
      rw [List.find?_cons_of_neg _ (by simp [hpc])]
      exact ih2

lemma findByIdAndUser_saveAsset {l : List Asset} {id uid : Nat} {a b : Asset}
    (hfind : findByIdAndUser l id uid = some a) (hid : b.id = a.id)
    (hb : (b.id == id && b.userId == uid) = true) :
    findByIdAndUser (saveAsset l b) id uid = some b :=
  find?_saveAsset_of_found hfind hid hb

lemma saveAsset_twice (l : List Asset) (a : Asset) :
    saveAsset (saveAsset l a) a = saveAsset l a := by
  induction l with
  | nil => rfl
  | cons b rest ih =>
    simp only [saveAsset, List.map_cons] at ih ⊢
    by_cases hb : (b.id == a.id) = true
    · simpa [hb] using ih
    · simpa [hb] using ih

lemma asset_set_visibility_self (a : Asset) (h : a.visibility = "shared") :
    { a with visibility := "shared" } = a := by
  cases a
  simp_all

/-- C4: generate-share is idempotent: a token is drawn only when none is
present, two calls in sequence answer with the same token, the asset is
shared after the first call, and the second call changes nothing. -/
theorem generateShare_idempotent (assets : List Asset) (uid id : Nat)
    (asset : Asset) (t1 t2 : String) (ht1 : t1 ≠ "")
    (hfind : findByIdAndUser assets id uid = some asset) :
    (asset.shareToken = none →
      (generateShare assets uid id t1).resp = .ok (some t1)) ∧
    (∀ s, asset.shareToken = some s → s ≠ "" →
      (generateShare assets uid id t1).resp = .ok (some s)) ∧
    ((generateShare (generateShare assets uid id t1).assets uid id t2).resp =
      (generateShare assets uid id t1).resp) ∧
    (∃ a1, findByIdAndUser (generateShare assets uid id t1).assets id uid =
        some a1 ∧ a1.visibility = "shared" ∧
      (generateShare (generateShare assets uid id t1).assets uid id t2).assets =
        (generateShare assets uid id t1).assets) := by
  have hfind0 : List.find? (fun a => a.id == id && a.userId == uid) assets =
      some asset := hfind
  have hp : (asset.id == id && asset.userId == uid) = true := by
    simpa using List.find?_some hfind0
  by_cases htok : truthy asset.shareToken = true
  · have hsome : asset.shareToken.isSome = true := by
      cases hs : asset.shareToken with
      | none => rw [hs] at htok; simp [truthy] at htok
      | some s => rfl
    have hfind2 : findByIdAndUser
        (saveAsset assets { asset with visibility := "shared" }) id uid =
        some { asset with visibility := "shared" } :=
      findByIdAndUser_saveAsset hfind rfl (by simpa using hp)
    have hassets1 : (generateShare assets uid id t1).assets =
        saveAsset assets { asset with visibility := "shared" } := by
      simp [generateShare, hfind, htok]
    refine ⟨?_, ?_, ?_, ?_⟩
    · intro hnone
      rw [hnone] at htok
      simp [truthy] at htok
    · intro s hs hsne
      simp [generateShare, hfind, hs, truthy_some_of_ne hsne]
    · rw [hassets1]
      simp [generateShare, hfind, hfind2, htok, saveAsset_twice]
    · refine ⟨{ asset with visibility := "shared" }, ?_, rfl, ?_⟩
      · rw [hassets1]; exact hfind2
      · rw [hassets1]
        simp [generateShare, hfind2, htok, saveAsset_twice]
  · have htok' : truthy asset.shareToken = false := by
      simpa using htok
    have hfind2 : findByIdAndUser
        (saveAsset assets
          { asset with visibility := "shared", shareToken := some t1 }) id uid =
        some { asset with visibility := "shared", shareToken := some t1 } :=
      findByIdAndUser_saveAsset hfind rfl (by simpa using hp)
    have hassets1 : (generateShare assets uid id t1).assets =
        saveAsset assets
          { asset with visibility := "shared", shareToken := some t1 } := by
      simp [generateShare, hfind, htok']
    refine ⟨?_, ?_, ?_, ?_⟩
    · intro hnone
      simp [generateShare, hfind, htok']
    · intro s hs hsne
      rw [hs] at htok'
      simp [truthy, isEmpty_false_of_ne hsne] at htok'
    · rw [hassets1]
      simp [generateShare, hfind, hfind2, htok', truthy_some_of_ne ht1]
    · refine ⟨{ asset with visibility := "shared", shareToken := some t1 },
        ?_, rfl, ?_⟩
      · rw [hassets1]; exact hfind2
      · rw [hassets1]
        simp [generateShare, hfind2, truthy_some_of_ne ht1, saveAsset_twice]

/-- Witness for C4: on the fresh demo asset the first call assigns the fresh
token, the second call answers identically and leaves the store unchanged. -/
theorem generateShare_idempotent_witness :
    (generateShare demoStore 7 3 "newtok").resp = .ok (some "newtok") ∧
    (generateShare (generateShare demoStore 7 3 "newtok").assets 7 3
        "other").resp = (generateShare demoStore 7 3 "newtok").resp ∧
    (generateShare (generateShare demoStore 7 3 "newtok").assets 7 3
        "other").assets = (generateShare demoStore 7 3 "newtok").assets := by
  have m := generateShare_idempotent demoStore 7 3 demoAssetFresh "newtok"
    "other" (by decide) (by decide)
  exact ⟨m.1 rfl, m.2.2.1, m.2.2.2.choose_spec.2.2⟩

lemma findById_deleteById (l : List Asset) (id : Nat)
    (h : (l.map Asset.id).Nodup) : findById (deleteById l id) id = none := by
  induction l with
  | nil => rfl
  | cons a rest ih =>
    simp only [List.map_cons, List.nodup_cons] at h
    by_cases ha : (a.id == id) = true
    · rw [deleteById, if_pos ha]
      have haid : a.id = id := by simpa using ha
      rw [findById]
      refine List.find?_eq_none.mpr ?_
      intro b hb hbid
      have : b.id = id := by simpa using hbid
      exact h.1 (haid ▸ this ▸ List.mem_map_of_mem Asset.id hb)
    · rw [deleteById, if_neg (by simpa using ha)]
      rw [findById, List.find?_cons_of_neg _ (by simpa using ha)]
      exact ih h.2

lemma not_mem_conditional_erase {files : List String} {x : String}
    (h : files.Nodup) :
    x ∉ (if files.contains x then files.erase x else files) := by
  by_cases hc : files.contains x = true
  · rw [if_pos hc]
    exact h.not_mem_erase
  · rw [if_neg hc]
    intro hx
    exact hc (List.elem_iff.mpr hx)

/-- C7: owner deletion of a PIN-protected asset is atomic on failure: with a
missing PIN or a wrong PIN the 403 is returned with the store and the uploads
directory entirely unchanged, and with the matching PIN the record and the
stored file are both removed. -/
theorem delete_pin_atomic (assets : List Asset) (files : List String)
    (uid id : Nat) (asset : Asset) (h : String)
    (hfind : findByIdAndUser assets id uid = some asset)
    (hpin : asset.pin = some h) (hne : h ≠ "")
    (hids : (assets.map Asset.id).Nodup) (hfiles : files.Nodup) :
    deleteAsset assets files uid id none =
      ⟨.err 403 "PIN required", assets, files⟩ ∧
    (∀ p, p ≠ "" → bcryptCompare p h = false →
      deleteAsset assets files uid id (some p) =
        ⟨.err 403 "Invalid PIN", assets, files⟩) ∧
    (∀ p, p ≠ "" → bcryptCompare p h = true →
      (deleteAsset assets files uid id (some p)).resp = .ok "Deleted" ∧
      findById (deleteAsset assets files uid id (some p)).assets id = none ∧
      urlFilename asset.url ∉ (deleteAsset assets files uid id (some p)).files) := by
  have hne' : h.isEmpty = false := isEmpty_false_of_ne hne
  refine ⟨?_, ?_, ?_⟩
  · simp [deleteAsset, hfind, hpin, truthy, hne']
  · intro p hp hcmp
    simp [deleteAsset, hfind, hpin, truthy, hne', showOptPin,
      isEmpty_false_of_ne hp, hcmp]
  · intro p hp hcmp
    have hres : deleteAsset assets files uid id (some p) =
        ⟨.ok "Deleted", deleteById assets id,
          if files.contains (urlFilename asset.url) then
            files.erase (urlFilename asset.url) else files⟩ := by
      simp [deleteAsset, hfind, hpin, truthy, hne', showOptPin,
        isEmpty_false_of_ne hp, hcmp]
    rw [hres]
    exact ⟨rfl, findById_deleteById assets id hids,
      not_mem_conditional_erase hfiles⟩

/-- Witness for C7 on the demo store: each of the three delete outcomes is
realised on the protected demo asset. -/
theorem delete_pin_atomic_witness :
    deleteAsset demoStore demoFiles 7 1 none =
      ⟨.err 403 "PIN required", demoStore, demoFiles⟩ ∧
    deleteAsset demoStore demoFiles 7 1 (some "9999") =
      ⟨.err 403 "Invalid PIN", demoStore, demoFiles⟩ ∧
    (deleteAsset demoStore demoFiles 7 1 (some "1234")).resp = .ok "Deleted" ∧
    findById (deleteAsset demoStore demoFiles 7 1 (some "1234")).assets 1 =
      none ∧
    urlFilename demoAsset.url ∉
      (deleteAsset demoStore demoFiles 7 1 (some "1234")).files := by
  have m := delete_pin_atomic demoStore demoFiles 7 1 demoAsset
    (bcryptHash "1234") (by decide) rfl (by decide) (by decide) (by decide)
  have m3 := m.2.2 "1234" (by decide) (by decide)
  exact ⟨m.1, m.2.1 "9999" (by decide) (by decide), m3.1, m3.2.1, m3.2.2⟩

lemma mem_saveAsset {l : List Asset} {x b : Asset} (hb : b ∈ saveAsset l x) :
    b = x ∨ b ∈ l := by
  rcases List.mem_map.mp hb with ⟨c, hc, hfc⟩
  by_cases hcid : (c.id == x.id) = true
  · simp only [hcid, if_true] at hfc
    exact Or.inl hfc.symm
  · simp only [hcid, if_false] at hfc
    exact Or.inr (hfc ▸ hc)

lemma mem_deleteById {l : List Asset} {id : Nat} {b : Asset}
    (hb : b ∈ deleteById l id) : b ∈ l := by
  induction l with
  | nil => simp [deleteById] at hb
  | cons a rest ih =>
    rw [deleteById] at hb
    by_cases ha : (a.id == id) = true
    · rw [if_pos ha] at hb
      exact List.mem_cons_of_mem _ hb
    · rw [if_neg ha] at hb
      rcases List.mem_cons.mp hb with rfl | hb
      · exact List.mem_cons_self _ _
      · exact List.mem_cons_of_mem _ (ih hb)

lemma truthy_isSome {o : Option String} (h : truthy o = true) :
    o.isSome = true := by
  cases o with
  | none => simp [truthy] at h
  | some s => rfl

lemma jsOrStr_shared {o : Option String}
    (h : jsOrStr o "private" = "shared") : (o == some "shared") = true := by
  cases o with
  | none => exact absurd h (by decide)
  | some v =>
    by_cases hv : v.isEmpty = true
    · simp [jsOrStr, hv] at h
    · simp [jsOrStr, hv] at h
      simp [h]

lemma inv_uploadAsset {assets : List Asset}
    (hinv : ∀ a ∈ assets, SharedHasToken a) (file : Option FileInfo)
    (uid newId now : Nat) (req : UploadReq) (tok : String) :
    ∀ a ∈ (uploadAsset assets file uid req newId tok now).assets,
      SharedHasToken a := by
  intro a ha
  cases file with
  | none => exact hinv a ha
  | some f =>
    simp only [uploadAsset, List.mem_append] at ha
    rcases ha with h | h
    · exact hinv a h
    · simp only [List.mem_singleton] at h
      subst h
      intro hvis
      simp only at hvis ⊢
      rw [jsOrStr_shared hvis]
      rfl

lemma inv_generateShare {assets : List Asset}
    (hinv : ∀ a ∈ assets, SharedHasToken a) (uid id : Nat) (fresh : String) :
    ∀ a ∈ (generateShare assets uid id fresh).assets, SharedHasToken a := by
  intro a ha
  cases hf : findByIdAndUser assets id uid with
  | none =>
    simp only [generateShare, hf] at ha
    exact hinv a ha
  | some asset =>
    simp only [generateShare, hf] at ha
    rcases mem_saveAsset ha with rfl | h
    · intro _
      by_cases hc : truthy asset.shareToken = true
      · simp only [hc, if_true]
        exact truthy_isSome hc
      · simp only [hc, if_false]
        rfl
    · exact hinv a h

lemma inv_deleteAsset {assets : List Asset}
    (hinv : ∀ a ∈ assets, SharedHasToken a) (files : List String)
    (uid id : Nat) (pinH : Option String) :
    ∀ a ∈ (deleteAsset assets files uid id pinH).assets, SharedHasToken a := by
  intro a ha
  cases hf : findByIdAndUser assets id uid with
  | none =>
    simp only [deleteAsset, hf] at ha
    exact hinv a ha
  | some asset =>
    simp only [deleteAsset, hf] at ha
    split at ha
    · split at ha
      · exact hinv a ha
      · split at ha
        · exact hinv a (mem_deleteById ha)
        · exact hinv a ha
    · exact hinv a (mem_deleteById ha)

lemma inv_shareAccess {assets : List Asset}
    (hinv : ∀ a ∈ assets, SharedHasToken a) (t : String)
    (pin : Option String) :
    ∀ a ∈ (shareAccess assets t pin).assets, SharedHasToken a := by
  intro a ha
  cases hf : findByShareToken assets t with
  | none =>
    simp only [shareAccess, hf] at ha
    exact hinv a ha
  | some asset =>
    have hmem : asset ∈ assets := List.mem_of_find?_eq_some hf
    simp only [shareAccess, hf] at ha
    split at ha
    · split at ha
      · exact hinv a ha
      · split at ha
        · rcases mem_saveAsset ha with rfl | h
          · exact fun hv => hinv asset hmem hv
          · exact hinv a h
        · exact hinv a ha
    · rcases mem_saveAsset ha with rfl | h
      · exact fun hv => hinv asset hmem hv
      · exact hinv a h

lemma inv_getShare {assets : List Asset}
    (hinv : ∀ a ∈ assets, SharedHasToken a) (users : List User)
    (tok : Option String) :
    ∀ a ∈ (getShare users assets tok).assets, SharedHasToken a := by
  intro a ha
  by_cases htok : truthy tok = true
  · cases hf : findByShareToken assets (showOptPin tok) with
    | none =>
      simp only [getShare, htok, Bool.not_true, if_false, Bool.false_eq_true,
        hf] at ha
      exact hinv a ha
    | some asset =>
      have hmem : asset ∈ assets := List.mem_of_find?_eq_some hf
      cases ho : users.find? (fun u => u.id == asset.userId) with
      | none =>
        simp only [getShare, htok, Bool.not_true, if_false, Bool.false_eq_true,
          hf, ho] at ha
        exact hinv a ha
      | some owner =>
        simp only [getShare, htok, Bool.not_true, if_false, Bool.false_eq_true,
          hf, ho] at ha
        split at ha
        · exact hinv a ha
        · rcases mem_saveAsset ha with rfl | h
          · exact fun hv => hinv asset hmem hv
          · exact hinv a h
  · simp only [getShare, htok] at ha
    simp only [Bool.not_eq_true] at htok
    simp only [htok, Bool.not_false, if_true] at ha
    exact hinv a ha

/-- C8: every operation preserves the invariant that an asset with shared
visibility carries a share token: upload, generate-share, delete, anonymous
access and the metadata lookup all map stores inside the invariant to stores
inside the invariant. -/
theorem shared_visibility_has_token (assets : List Asset)
    (hinv : ∀ a ∈ assets, SharedHasToken a) (file : Option FileInfo)
    (users : List User) (req : UploadReq) (uid id newId now : Nat)
    (fresh t : String) (files : List String) (pinH pin tokQ : Option String) :
    (∀ a ∈ (uploadAsset assets file uid req newId fresh now).assets,
      SharedHasToken a) ∧
    (∀ a ∈ (generateShare assets uid id fresh).assets, SharedHasToken a) ∧
    (∀ a ∈ (deleteAsset assets files uid id pinH).assets, SharedHasToken a) ∧
    (∀ a ∈ (shareAccess assets t pin).assets, SharedHasToken a) ∧
    (∀ a ∈ (getShare users assets tokQ).assets, SharedHasToken a) :=
  ⟨inv_uploadAsset hinv file uid newId now req fresh,
    inv_generateShare hinv uid id fresh,
    inv_deleteAsset hinv files uid id pinH,
    inv_shareAccess hinv t pin,
    inv_getShare hinv users tokQ⟩

/-- Witness for C8: the asset just shared by the generate-share call on the
demo store satisfies the invariant, via the preservation theorem applied at
concrete inputs. -/
theorem shared_visibility_has_token_witness :
    SharedHasToken
      { demoAssetFresh with
        visibility := "shared", shareToken := some "newtok" } :=
  (shared_visibility_has_token demoStore (by decide) (some demoFile)
      demoUsers demoReqShortPin 7 3 9 0 "newtok" "tok456" demoFiles none
      none (some "tok123")).2.1 _ (by decide)
